import Mathlib

/-!
Shallow embedding of the SM-TRIBE/bot Telegram dating bot (src/index.js and the
near-duplicate revisions src/unnamed/part_000 .. part_003) and proofs about its
specification.  The embedding models the JSON document store, the per-user
session registry, the search cache and the coin-ledger / matching / moderation
handlers as pure Lean functions.  Chat ids are modelled as naturals (the source
coerces between numbers and their decimal strings consistently), timestamps as
milliseconds since the epoch (naturals), and coin balances as integers so that
a negative balance is representable.  Outbound message sends are modelled by
the data they would carry (recipient lists, outcome tags); delivery itself is
an external port.
-/

namespace DatingBot

/-- A viewers-list entry: the id of the user who viewed a profile and the ISO
timestamp of the view, modelled as milliseconds (source: objects
`{ id: chatId, date: new Date().toISOString() }` in showSearchResult). -/
structure Viewer where
  id : Nat
  date : Nat
deriving DecidableEq

/-- A user record as stored under db.users (source: object created in
startProfileCreation / handleStartCommand plus the fields filled by the wizard
and field edits). -/
structure User where
  id : Nat
  name : String := ""
  age : Int := 0
  gender : String := ""
  city : String := ""
  interests : List String := []
  limits : String := ""
  extraInfo : String := ""
  coins : Int := 0
  likes : List Nat := []
  photos : List String := []
  viewers : List Viewer := []
  lastDaily : Option Nat := none
  boostUntil : Option Nat := none
  banned : Bool := false
  referralCode : String := ""
  referredBy : Option Nat := none
deriving DecidableEq

/-- A match record (source: `db.matches[matchId] = { users: [...], date: ... }`
in handleLikeAction).  The uuid key is not semantically relevant; db.matches is
modelled as the list of its values in insertion order. -/
structure MatchRec where
  users : List Nat
  date : Nat
deriving DecidableEq

/-- A report record (source: newReport object in handleReportSubmission). -/
structure Report where
  reporterId : Nat
  reportedId : Nat
  reason : String
  status : String
  timestamp : Nat
deriving DecidableEq

/-- The whole-document JSON store.  db.users is a map keyed by user id; it is
modelled as the list of its values in the enumeration order used by
Object.values, with lookup by id. -/
structure Db where
  users : List User := []
  «matches» : List MatchRec := []
  reports : List Report := []
  subAdmins : List Nat := []
deriving DecidableEq

/-- Lookup `db.users[chatId]` (undefined becomes none). -/
def findUser (db : Db) (uid : Nat) : Option User :=
  db.users.find? (fun u => u.id == uid)

/-- In-place mutation of the object `db.users[chatId]`, modelled functionally:
the user with the given id is replaced by `f` applied to it. -/
def updateUser (db : Db) (uid : Nat) (f : User → User) : Db :=
  { db with users := db.users.map (fun u => if u.id == uid then f u else u) }

/-- All coin balances in the document are non-negative (the spec's ledger
invariant). -/
def nonNegBalances (db : Db) : Prop :=
  ∀ u ∈ db.users, 0 ≤ u.coins

instance : DecidablePred nonNegBalances := fun db =>
  inferInstanceAs (Decidable (∀ u ∈ db.users, 0 ≤ u.coins))

/-- Leading-whitespace skipping of JavaScript parseInt. -/
def skipWs : List Char → List Char
  | c :: cs => if c = ' ' ∨ c = '\t' ∨ c = '\n' ∨ c = '\r' then skipWs cs else c :: cs
  | [] => []

/-- Numeric value of a digit run. -/
def digitsVal (ds : List Char) : Nat :=
  ds.foldl (fun acc c => acc * 10 + (c.toNat - 48)) 0

/-- JavaScript `parseInt(s, 10)`: skip leading whitespace, read an optional
sign, then the longest digit prefix; NaN (none) when no digit is read.
Trailing garbage is ignored. -/
def jsParseInt (s : String) : Option Int :=
  let cs := skipWs s.data
  let signed : Int × List Char :=
    match cs with
    | '-' :: rest => (-1, rest)
    | '+' :: rest => (1, rest)
    | _ => (1, cs)
  let ds := signed.2.takeWhile Char.isDigit
  if ds.isEmpty then none
  else some (signed.1 * (digitsVal ds : Int))

/-- Milliseconds in 24 hours (the literal 24 * 60 * 60 * 1000 in the source). -/
def dayMs : Nat := 24 * 60 * 60 * 1000

/-- Last n elements of a list, in order: JavaScript `array.slice(-n)`. -/
def sliceLast (n : Nat) (l : List α) : List α :=
  l.drop (l.length - n)

/-- Outcome of handleLikeAction (which reply / alert the liker sees). -/
inductive LikeOutcome
  | profileNotFound
  | notEnoughCoins
  | alreadyLiked
  | matched
  | oneWayLiked
deriving DecidableEq

/-- handleLikeAction (src/unnamed/part_002 lines 999-1035).  Returns the new
document, the outcome, and the list of chat ids that receive a notification
sendMessage (both parties on a match, only the liker on a one-way like).
The mutual-like test runs after the in-place mutation of the liker profile,
so it is evaluated on the updated document, reproducing the aliasing of the
source when likerId = likedId. -/
def handleLikeAction (db : Db) (likerId likedId : Nat) (now : Nat) :
    Db × LikeOutcome × List Nat :=
  match findUser db likerId, findUser db likedId with
  | none, _ => (db, .profileNotFound, [])
  | some _, none => (db, .profileNotFound, [])
  | some likerProfile, some _ =>
    if likerProfile.coins < 10 then (db, .notEnoughCoins, [])
    else if likerProfile.likes.contains likedId then (db, .alreadyLiked, [])
    else
      let db1 := updateUser db likerId
        (fun u => { u with coins := u.coins - 10, likes := u.likes ++ [likedId] })
      match findUser db1 likedId with
      | none => (db1, .profileNotFound, [])
      | some likedAfter =>
        if likedAfter.likes.contains likerId then
          let db2 := { db1 with «matches» := db1.«matches» ++ [⟨[likerId, likedId], now⟩] }
          (db2, .matched, [likerId, likedId])
        else (db1, .oneWayLiked, [likerId])

/-- Outcome of handleDailyBonus. -/
inductive DailyOutcome
  | noProfile
  | waitMore (hours minutes : Int)
  | granted (newBalance : Int)
deriving DecidableEq

/-- The guard of handleDailyBonus: a previous claim exists and is less than
24 hours old. -/
def withinDailyWindow (profile : User) (now : Nat) : Bool :=
  match profile.lastDaily with
  | some last => decide ((now : Int) - (last : Int) < (dayMs : Int))
  | none => false

/-- The remaining wait reported by handleDailyBonus, in milliseconds. -/
def dailyTimeLeft (profile : User) (now : Nat) : Int :=
  (dayMs : Int) - ((now : Int) - (profile.lastDaily.getD 0 : Int))

/-- handleDailyBonus (src/index.js lines 449-470, identical in part_002):
grants 25 coins unless the last claim is less than 24 hours old, in which case
the remaining wait is reported (hours and minutes) and nothing changes. -/
def handleDailyBonus (db : Db) (chatId : Nat) (now : Nat) : Db × DailyOutcome :=
  match findUser db chatId with
  | none => (db, .noProfile)
  | some profile =>
    if withinDailyWindow profile now then
      (db, .waitMore (dailyTimeLeft profile now / (1000 * 60 * 60))
        ((dailyTimeLeft profile now % (1000 * 60 * 60)) / (1000 * 60)))
    else
      (updateUser db chatId (fun u => { u with coins := u.coins + 25, lastDaily := some now }),
       .granted (profile.coins + 25))

/-- Outcome of buyProfileBoost. -/
inductive BoostOutcome
  | errorThrown      -- profile undefined: the source throws and the router catches
  | notEnoughCoins
  | boosted (newBoostUntil : Nat)
deriving DecidableEq

/-- The base of the boost extension: the current boostUntil when still in
the future, otherwise now. -/
def currentBoostBase (profile : User) (now : Nat) : Nat :=
  match profile.boostUntil with
  | some b => if now < b then b else now
  | none => now

/-- buyProfileBoost (src/index.js lines 654-672, identical logic in part_002
lines 795-814): cost 50; the new boostUntil is 24 h after the later of now and
the current (still active) boostUntil. -/
def buyProfileBoost (db : Db) (chatId : Nat) (now : Nat) : Db × BoostOutcome :=
  match findUser db chatId with
  | none => (db, .errorThrown)
  | some profile =>
    if profile.coins < 50 then (db, .notEnoughCoins)
    else
      (updateUser db chatId (fun u =>
        { u with
          coins := u.coins - 50
          boostUntil := some (currentBoostBase profile now + dayMs) }),
       .boosted (currentBoostBase profile now + dayMs))

/-- Outcome of the view-viewers unlock. -/
inductive ViewersOutcome
  | errorThrown
  | notEnoughCoins
  | shown (entries : List Viewer)
deriving DecidableEq

/-- handleProfileViewers (src/unnamed/part_002 lines 1182-1216, same in
index.js): charges 15 coins whenever the balance allows, even when the viewers
list is empty, and shows the last 10 entries most-recent-first. -/
def handleProfileViewers (db : Db) (chatId : Nat) : Db × ViewersOutcome :=
  match findUser db chatId with
  | none => (db, .errorThrown)
  | some profile =>
    if profile.coins < 15 then (db, .notEnoughCoins)
    else
      (updateUser db chatId (fun u => { u with coins := u.coins - 15 }),
       .shown ((sliceLast 10 profile.viewers).reverse))

/-- Outcome of the admin coin grant. -/
inductive GrantOutcome
  | invalidAmount
  | targetNotFound
  | granted
deriving DecidableEq

/-- handleCoinGrant (src/unnamed/part_002 lines 577-598): parse the amount,
reject non-positive or unparsable input, then add the amount to the target's
balance unconditionally (no balance check on the admin). -/
def handleCoinGrant (db : Db) (targetId : Nat) (raw : String) : Db × GrantOutcome :=
  match jsParseInt raw with
  | none => (db, .invalidAmount)
  | some amount =>
    if amount ≤ 0 then (db, .invalidAmount)
    else
      match findUser db targetId with
      | none => (db, .targetNotFound)
      | some _ =>
        (updateUser db targetId (fun u => { u with coins := u.coins + amount }), .granted)

/-- The referrer lookup of handleStartCommand: the first stored user holding
the referral code, when a code was supplied. -/
def referrerFor (db : Db) (referralCode : Option String) : Option User :=
  match referralCode with
  | some code => db.users.find? (fun u => u.referralCode == code)
  | none => none

/-- handleStartCommand (src/index.js lines 272-308): on first contact, pay the
referral bonus (50 coins to the referrer, 25 extra starting coins to the new
user) when the code resolves to a different existing user, then create the new
user shell with 100 base coins.  newCode stands for the freshly generated uuid
fragment. -/
def handleStartCommand (db : Db) (chatId : Nat) (referralCode : Option String)
    (newCode : String) : Db :=
  if (findUser db chatId).isSome then db
  else
    match referrerFor db referralCode with
    | some r =>
      if r.id ≠ chatId then
        let db1 := updateUser db r.id (fun u => { u with coins := u.coins + 50 })
        { db1 with users := db1.users ++
            [{ id := chatId, coins := 100 + 25, referralCode := newCode,
               referredBy := some r.id }] }
      else
        { db with users := db.users ++
            [{ id := chatId, coins := 100, referralCode := newCode }] }
    | none =>
      { db with users := db.users ++
          [{ id := chatId, coins := 100, referralCode := newCode }] }

/-- Per-user ephemeral session state (the userState map entries relevant to
the verified flows). -/
inductive SessionState
  | giftingId
  | giftingAmount (targetId : Nat)
  | giftingConfirm (targetId : Nat) (amount : Int)
  | editingField (field : String)
  | grantingAmount (targetId : Nat)
  | broadcasting
deriving DecidableEq

/-- Outcome of the two validation steps of the gifting flow. -/
inductive GiftStepOutcome
  | errorThrown
  | userNotFound
  | invalidAmount
  | notEnoughCoins
  | askAmount
  | askConfirm
deriving DecidableEq

/-- The recipient-id step of handleGifting (src/unnamed/part_002 lines
1141-1149): validate that the target exists, then move the session to the
amount step.  The document is never mutated here. -/
def giftIdStep (db : Db) (targetId : Nat) : SessionState × GiftStepOutcome :=
  if (findUser db targetId).isSome then (.giftingAmount targetId, .askAmount)
  else (.giftingId, .userNotFound)

/-- The amount-entry step of handleGifting (src/unnamed/part_002 lines
1151-1165): parse the amount, reject non-positive input, reject an amount
above the sender's current balance, and otherwise record the amount in the
session and ask for confirmation.  The document is never mutated here. -/
def giftAmountEntry (db : Db) (chatId targetId : Nat) (raw : String) :
    SessionState × GiftStepOutcome :=
  let keep := SessionState.giftingAmount targetId
  match jsParseInt raw with
  | none => (keep, .invalidAmount)
  | some amount =>
    if amount ≤ 0 then (keep, .invalidAmount)
    else
      match findUser db chatId with
      | none => (keep, .errorThrown)
      | some senderProfile =>
        if senderProfile.coins < amount then (keep, .notEnoughCoins)
        else (.giftingConfirm targetId amount, .askConfirm)

/-- The gift_confirm callback branch of handleGifting (src/unnamed/part_002
lines 1167-1179): re-reads the document and applies the transfer using the
session's stored amount, with no re-validation of the sender's balance.  When
either profile is missing the source throws before writeDb, so the document
is unchanged. -/
def giftConfirm (db : Db) (chatId targetId : Nat) (amount : Int) : Db :=
  if (findUser db chatId).isSome && (findUser db targetId).isSome then
    updateUser
      (updateUser db chatId (fun u => { u with coins := u.coins - amount }))
      targetId (fun u => { u with coins := u.coins + amount })
  else db

/-- Result of a single-field edit or wizard step. -/
inductive EditOutcome
  | rejected
  | updated
deriving DecidableEq

/-- The age branch of handleFieldEdit in src/unnamed/part_002 lines 296-303:
parseInt the text, accept exactly 18..99, store the parsed integer; otherwise
send a corrective prompt and change nothing. -/
def fieldEditAge (p : User) (raw : String) : User × EditOutcome :=
  match jsParseInt raw with
  | some age =>
    if 18 ≤ age ∧ age ≤ 99 then ({ p with age := age }, .updated) else (p, .rejected)
  | none => (p, .rejected)

/-- The age step of the creation wizard in src/unnamed/part_002 lines 352-357:
the same parse-and-range validation as the field edit; on failure the cursor
does not advance and the profile is untouched. -/
def wizardAgeStep (p : User) (raw : String) : User × EditOutcome :=
  match jsParseInt raw with
  | some age =>
    if age < 18 ∨ 99 < age then (p, .rejected) else ({ p with age := age }, .updated)
  | none => (p, .rejected)

/-- Minimal profile view for the src/index.js revision, whose field edits
store the raw text (src/index.js line 438: profile[field] = newValue). -/
structure ProfileIx where
  age : String
deriving DecidableEq

/-- The age branch of handleFieldEdit in src/index.js lines 430-441: reject
only when parseInt is NaN or below 18; any parsable value of at least 18
(100 included) is stored as the raw text. -/
def fieldEditAgeIx (p : ProfileIx) (raw : String) : ProfileIx × EditOutcome :=
  match jsParseInt raw with
  | none => (p, .rejected)
  | some a => if a < 18 then (p, .rejected) else ({ age := raw }, .updated)

/-- The age step of the creation wizard in src/index.js lines 352-354: the raw
text is stored with no validation at all. -/
def wizardAgeStepIx (_p : ProfileIx) (raw : String) : ProfileIx :=
  { age := raw }

/-- handleFieldEdit of src/unnamed/part_002 lines 280-319 for text input,
lifted to the document: age is validated and parsed, interests are split and
trimmed, the remaining fields store the provided text. -/
def handleFieldEditDb (db : Db) (chatId : Nat) (field : String) (raw : String) :
    Db × EditOutcome :=
  match findUser db chatId with
  | none => (db, .rejected)
  | some p =>
    if field == "age" then
      match fieldEditAge p raw with
      | (p', .updated) => (updateUser db chatId (fun _ => p'), .updated)
      | (_, .rejected) => (db, .rejected)
    else if field == "interests" then
      (updateUser db chatId
        (fun u => { u with interests := (raw.splitOn ",").map String.trim }), .updated)
    else if field == "name" then
      (updateUser db chatId (fun u => { u with name := raw }), .updated)
    else if field == "city" then
      (updateUser db chatId (fun u => { u with city := raw }), .updated)
    else if field == "limits" then
      (updateUser db chatId (fun u => { u with limits := raw }), .updated)
    else if field == "extraInfo" then
      (updateUser db chatId (fun u => { u with extraInfo := raw }), .updated)
    else (db, .rejected)

/-- The viewers side effect of showSearchResult (src/index.js lines 820-829,
identical in part_002 lines 965-974): when the searcher has no entry yet in
the candidate's viewers list, push a new entry with the current time and
truncate to the last 20; when an entry already exists, nothing changes (in
particular the stored timestamp is not refreshed). -/
def recordView (target : User) (viewerId : Nat) (now : Nat) : User :=
  if (target.viewers.find? (fun v => v.id == viewerId)).isSome then target
  else { target with viewers := sliceLast 20 (target.viewers ++ [⟨viewerId, now⟩]) }

/-- Search criteria as read by executeSearch in src/index.js lines 762-800:
the gender choice, the parsed age bucket (the source splits the "a-b" label),
and the optional raw interests text. -/
structure SearchCriteria where
  gender : Option String := none
  ageBucket : Option (Int × Int) := none
  interests : Option String := none
deriving DecidableEq

/-- Boost-active test used by the ranking comparator and the profile
renderer: boostUntil is set and strictly in the future. -/
def isBoosted (now : Nat) (u : User) : Bool :=
  match u.boostUntil with
  | some b => now < b
  | none => false

/-- The candidate filter of executeSearch (src/index.js lines 771-780):
exclude the searcher and banned users, then gender equality, age within the
bucket, and at least one case-insensitive interest overlap when interests
were supplied. -/
def matchesCriteria (chatId : Nat) (c : SearchCriteria) (u : User) : Bool :=
  if u.id == chatId || u.banned then false
  else if (match c.gender with | some g => u.gender != g | none => false) then false
  else if (match c.ageBucket with
           | some (lo, hi) => decide (u.age < lo) || decide (hi < u.age)
           | none => false) then false
  else
    let searchInterests :=
      match c.interests with
      | some s => (s.splitOn ",").map (fun i : String => i.trim.toLower)
      | none => []
    if searchInterests.length > 0 then
      searchInterests.any (fun si => (u.interests.map String.toLower).contains si)
    else true

/-- The sort comparator of executeSearch (src/index.js lines 781-787):
boosted-and-active profiles compare before the rest, everything else ties. -/
def boostCmp (now : Nat) (a b : User) : Int :=
  if isBoosted now a && !isBoosted now b then -1
  else if !isBoosted now a && isBoosted now b then 1
  else 0

/-- Stable insertion: x is placed before the first element it must precede or
may tie with; elements the comparator orders strictly before x stay in front.
Together with sortBy below this implements the stable-sort semantics the
ECMAScript specification guarantees for Array.prototype.sort. -/
def insertBy (cmp : α → α → Int) (x : α) : List α → List α
  | [] => [x]
  | y :: ys => if cmp x y ≤ 0 then x :: y :: ys else y :: insertBy cmp x ys

/-- Stable sort by a comparator (insertion sort, folding from the right so an
element is inserted into the already-sorted remainder it originally
preceded). -/
def sortBy (cmp : α → α → Int) : List α → List α
  | [] => []
  | x :: xs => insertBy cmp x (sortBy cmp xs)

/-- The result list of executeSearch (src/index.js lines 762-788): filter the
user collection, then rank it with the boosted-first comparator under stable
sort semantics. -/
def executeSearchResults (db : Db) (chatId : Nat) (c : SearchCriteria) (now : Nat) :
    List User :=
  sortBy (boostCmp now) (db.users.filter (matchesCriteria chatId c))

/-- The recipient list of handleBroadcast (src/unnamed/part_002 lines
549-556): Object.keys(db.users), i.e. every stored user, with no ban filter,
in enumeration order; each send is awaited and followed by the fixed 100 ms
delay. -/
def broadcastRecipients (db : Db) : List Nat :=
  db.users.map (fun u => u.id)

/-- The success/failure tallies of handleBroadcast given a delivery oracle
telling which sends succeed (delivery is an external port). -/
def broadcastCounts (db : Db) (delivers : Nat → Bool) : Nat × Nat :=
  ((broadcastRecipients db).countP (fun uid => delivers uid),
   (broadcastRecipients db).countP (fun uid => !delivers uid))

/-- A user record as parsed from the stored JSON file: the viewers array may
be absent in documents written by revisions that predate the viewers
feature. -/
structure StoredUser where
  id : Nat
  name : String := ""
  age : Int := 0
  gender : String := ""
  city : String := ""
  interests : List String := []
  limits : String := ""
  extraInfo : String := ""
  coins : Int := 0
  likes : List Nat := []
  photos : List String := []
  viewers : Option (List Viewer) := none
  lastDaily : Option Nat := none
  boostUntil : Option Nat := none
  banned : Bool := false
  referralCode : String := ""
  referredBy : Option Nat := none
deriving DecidableEq

/-- The per-user back-fill performed by readDb: a missing viewers array
becomes the empty list, every other field passes through. -/
def StoredUser.load (u : StoredUser) : User :=
  { id := u.id, name := u.name, age := u.age, gender := u.gender, city := u.city,
    interests := u.interests, limits := u.limits, extraInfo := u.extraInfo,
    coins := u.coins, likes := u.likes, photos := u.photos,
    viewers := u.viewers.getD [], lastDaily := u.lastDaily,
    boostUntil := u.boostUntil, banned := u.banned,
    referralCode := u.referralCode, referredBy := u.referredBy }

/-- Serialization of an in-memory user: every field, viewers included, is
written out. -/
def User.store (u : User) : StoredUser :=
  { id := u.id, name := u.name, age := u.age, gender := u.gender, city := u.city,
    interests := u.interests, limits := u.limits, extraInfo := u.extraInfo,
    coins := u.coins, likes := u.likes, photos := u.photos,
    viewers := some u.viewers, lastDaily := u.lastDaily,
    boostUntil := u.boostUntil, banned := u.banned,
    referralCode := u.referralCode, referredBy := u.referredBy }

/-- The raw JSON document as parsed from disk: any top-level collection may be
absent. -/
structure StoredDoc where
  users : Option (List StoredUser) := none
  «matches» : Option (List MatchRec) := none
  reports : Option (List Report) := none
  subAdmins : Option (List Nat) := none
deriving DecidableEq

/-- The in-memory document produced by readDb.  matches stays exactly as
parsed because readDb never touches it; the other collections are always
present after the back-fills. -/
structure LoadedDoc where
  users : List User := []
  «matches» : Option (List MatchRec) := some []
  reports : List Report := []
  subAdmins : List Nat := []
deriving DecidableEq

/-- The fresh default document: written on first load and returned from the
catch branch on any read error. -/
def emptyLoadedDoc : LoadedDoc :=
  { users := [], «matches» := some [], reports := [], subAdmins := [] }

/-- readDb (src/index.js lines 32-51).  none models a read or parse failure
(the catch branch).  A stored document without a users collection also lands
in the catch branch, because Object.values(undefined) throws before any
back-fill is kept.  Missing reports and subAdmins collections are back-filled
with empty ones; the matches collection is left exactly as parsed; each user's
missing viewers list becomes the empty list. -/
def readDb : Option StoredDoc → LoadedDoc
  | none => emptyLoadedDoc
  | some d =>
    match d.users with
    | none => emptyLoadedDoc
    | some us =>
      { users := us.map StoredUser.load,
        «matches» := d.«matches»,
        reports := d.reports.getD [],
        subAdmins := d.subAdmins.getD [] }

/-- writeDb (src/index.js lines 53-59): JSON.stringify of the whole document;
every collection present in memory is present on disk. -/
def writeDb (d : LoadedDoc) : StoredDoc :=
  { users := some (d.users.map User.store),
    «matches» := d.«matches»,
    reports := some d.reports,
    subAdmins := some d.subAdmins }

/-- The per-user session registry (userState), as an association list. -/
abbrev Sessions := List (Nat × SessionState)

/-- Lookup userState[chatId]. -/
def getSession (ss : Sessions) (uid : Nat) : Option SessionState :=
  (ss.find? (fun p => p.1 == uid)).map Prod.snd

/-- delete userState[chatId]. -/
def clearSession (ss : Sessions) (uid : Nat) : Sessions :=
  ss.filter (fun p => !(p.1 == uid))

/-- userState[chatId] = st. -/
def setSession (ss : Sessions) (uid : Nat) (st : SessionState) : Sessions :=
  clearSession ss uid ++ [(uid, st)]

/-- Whether the stored profile of this chat id is flagged banned. -/
def bannedUser (db : Db) (chatId : Nat) : Bool :=
  match findUser db chatId with
  | some u => u.banned
  | none => false

/-- Inline-button actions reachable through the callback_query routers,
restricted to the handlers embedded here. -/
inductive CallbackAction
  | likeUser (target : Nat)
  | storeBoost
  | viewersShow
  | giftConfirmBtn
deriving DecidableEq

/-- What the router sends back to the interacting user. -/
inductive RouterReply
  | bannedMessage   -- the fixed text rejection of the message router
  | bannedAlert     -- the fixed "You are banned." callback alert
  | handled
  | ignored
deriving DecidableEq

/-- Dispatch of callback actions to their handlers, shared by the two
callback_query routers.  The gift confirmation applies the session's stored
transfer; with no gifting session open the handler returns at the state
check. -/
def dispatchCallback (db : Db) (sessions : Sessions) (chatId : Nat)
    (q : CallbackAction) (now : Nat) : Db × Sessions :=
  match q with
  | .likeUser target => ((handleLikeAction db chatId target now).1, sessions)
  | .storeBoost => ((buyProfileBoost db chatId now).1, sessions)
  | .viewersShow => ((handleProfileViewers db chatId).1, sessions)
  | .giftConfirmBtn =>
    match getSession sessions chatId with
    | some (.giftingConfirm target amount) =>
      (giftConfirm db chatId target amount, clearSession sessions chatId)
    | _ => (db, sessions)

/-- The callback_query router of src/index.js lines 219-257: the query is
answered and dispatched immediately; this revision has no banned check in
front of the dispatch. -/
def callbackRouterIx (db : Db) (sessions : Sessions) (chatId : Nat)
    (q : CallbackAction) (now : Nat) : Db × Sessions × RouterReply :=
  let r := dispatchCallback db sessions chatId q now
  (r.1, r.2, .handled)

/-- The callback_query router of src/unnamed/part_002 lines 159-189: a banned
user is answered with the fixed alert and nothing else runs. -/
def callbackRouterP2 (db : Db) (sessions : Sessions) (chatId : Nat)
    (q : CallbackAction) (now : Nat) : Db × Sessions × RouterReply :=
  if bannedUser db chatId then (db, sessions, .bannedAlert)
  else
    let r := dispatchCallback db sessions chatId q now
    (r.1, r.2, .handled)

/-- The message router of src/unnamed/part_002 lines 130-157 (src/index.js
lines 159-187 carries the same banned guard): a banned user gets the fixed
rejection message and no session handler runs; otherwise the open session's
handler processes the text. -/
def messageRouterP2 (db : Db) (sessions : Sessions) (chatId : Nat)
    (text : String) : Db × Sessions × RouterReply :=
  if bannedUser db chatId then (db, sessions, .bannedMessage)
  else
    match getSession sessions chatId with
    | some (.editingField field) =>
      match handleFieldEditDb db chatId field text with
      | (db', .updated) => (db', clearSession sessions chatId, .handled)
      | (_, .rejected) => (db, sessions, .handled)
    | some .giftingId =>
      match jsParseInt text with
      | some t =>
        if 0 ≤ t then
          (db, setSession sessions chatId (giftIdStep db t.toNat).1, .handled)
        else (db, sessions, .handled)
      | none => (db, sessions, .handled)
    | some (.giftingAmount target) =>
      (db, setSession sessions chatId (giftAmountEntry db chatId target text).1, .handled)
    | some (.giftingConfirm _ _) => (db, sessions, .handled)
    | some (.grantingAmount targetId) =>
      match handleCoinGrant db targetId text with
      | (_, .invalidAmount) => (db, sessions, .handled)
      | (db2, _) => (db2, clearSession sessions chatId, .handled)
    | some .broadcasting => (db, clearSession sessions chatId, .handled)
    | none => (db, sessions, .ignored)

/-- The message router of src/index.js lines 159-217: the same banned guard
at the top of the handler, then routing by the open session; the grant-amount
step (which always clears the session, src/index.js lines 543-558) and the
broadcast flow are modelled, the other flows being routed the same way. -/
def messageRouterIx (db : Db) (sessions : Sessions) (chatId : Nat)
    (text : String) : Db × Sessions × RouterReply :=
  if bannedUser db chatId then (db, sessions, .bannedMessage)
  else
    match getSession sessions chatId with
    | some (.grantingAmount targetId) =>
      ((handleCoinGrant db targetId text).1, clearSession sessions chatId, .handled)
    | some .broadcasting => (db, clearSession sessions chatId, .handled)
    | _ => (db, sessions, .ignored)

/-- A search-results cache entry (searchCache[chatId]): the ranked snapshot
and the cursor. -/
structure SearchCache where
  results : List User
  index : Int
deriving DecidableEq

/-- Combined state for the browsing claims: the durable document plus one
searcher's cache entry. -/
structure BotState where
  db : Db
  cache : Option SearchCache
deriving DecidableEq

/-- banOrUnbanUser (src/unnamed/part_002 lines 522-535) restricted to its
document effect. -/
def banOrUnban (db : Db) (targetId : Nat) (shouldBan : Bool) : Db :=
  if (findUser db targetId).isSome then
    updateUser db targetId (fun u => { u with banned := shouldBan })
  else db

/-- Document mutations that can run between a search and later browsing. -/
inductive Mutation
  | ban (target : Nat) (shouldBan : Bool)
  | editField (target : Nat) (field : String) (raw : String)
  | boost (target : Nat) (now : Nat)
  | grant (target : Nat) (raw : String)
deriving DecidableEq

/-- Applying a mutation runs the corresponding handler on the document.  The
search cache lives in the separate searchCache map, which none of these
handlers reference. -/
def applyMutation (s : BotState) (m : Mutation) : BotState :=
  match m with
  | .ban t b => { s with db := banOrUnban s.db t b }
  | .editField t f raw => { s with db := (handleFieldEditDb s.db t f raw).1 }
  | .boost t now => { s with db := (buyProfileBoost s.db t now).1 }
  | .grant t raw => { s with db := (handleCoinGrant s.db t raw).1 }

/-- A whole sequence of mutations, applied in order. -/
def applyMutations (s : BotState) (ms : List Mutation) : BotState :=
  ms.foldl applyMutation s

/-- The tail of executeSearch (src/index.js lines 789-800): a non-empty
ranked snapshot is stored in the cache with the cursor at -1; when nothing
matched, the cache entry is left as it was. -/
def execSearchStep (s : BotState) (chatId : Nat) (c : SearchCriteria) (now : Nat) :
    BotState :=
  if (executeSearchResults s.db chatId c now).isEmpty then s
  else { s with cache := some { results := executeSearchResults s.db chatId c now, index := -1 } }

/-- What a browsing step reports back. -/
inductive NavOutcome
  | expired
  | atEnd
  | atStart
  | shown (profile : User)
deriving DecidableEq

/-- The moved cursor of showSearchResult: incremented on next, decremented
on prev. -/
def navIndex (cache : SearchCache) (dir : String) : Int :=
  cache.index + (if dir == "next" then 1 else 0) - (if dir == "prev" then 1 else 0)

/-- showSearchResult (src/index.js lines 802-844): move the cursor in the
cached list, clamp at either end with a boundary message and no wrap-around,
otherwise render the cached profile (all displayed fields come from the
snapshot) and record the view on the candidate's stored profile. -/
def showSearchResultStep (s : BotState) (chatId : Nat) (dir : String) (now : Nat) :
    BotState × NavOutcome :=
  match s.cache with
  | none => (s, .expired)
  | some cache =>
    if cache.results.isEmpty then (s, .expired)
    else
      if (cache.results.length : Int) ≤ navIndex cache dir then
        ({ s with cache := some { cache with index := (cache.results.length : Int) - 1 } },
         .atEnd)
      else if navIndex cache dir < 0 then
        ({ s with cache := some { cache with index := 0 } }, .atStart)
      else
        match cache.results.get? (navIndex cache dir).toNat with
        | none => (s, .expired)
        | some profile =>
          ({ db := updateUser s.db profile.id (fun u => recordView u chatId now),
             cache := some { cache with index := navIndex cache dir } }, .shown profile)

/-- Number of match records held for an unordered pair of user ids. -/
def pairMatchCount (db : Db) (a b : Nat) : Nat :=
  db.«matches».countP (fun m => m.users == [a, b] || m.users == [b, a])

/-! ## Concrete instances used by witnesses and counterexamples -/

/-- Sender of the gift race scenario: 50 coins. -/
def gcAlice : User := { id := 1, name := "alice", coins := 50 }

/-- Recipient of the gift race scenario. -/
def gcBob : User := { id := 2, name := "bob", coins := 0 }

/-- Document for the gift race scenario. -/
def gcDb : Db := { users := [gcAlice, gcBob] }

/-- Sessions after the gift recipient-id step of the race scenario. -/
def gcSessions : Sessions := [(1, .giftingAmount 2)]

/-- A banned user holding coins, for the callback-router scenario. -/
def banEve : User := { id := 7, name := "eve", coins := 100, banned := true }

/-- Document with a banned user for the router scenarios. -/
def banDb : Db := { users := [banEve] }

/-- Liker of the matching scenario: 15 coins, so the re-like balance check
fires first. -/
def mAmy : User := { id := 1, name := "amy", coins := 15 }

/-- Liked user of the matching scenario, who already likes amy. -/
def mBen : User := { id := 2, name := "ben", coins := 0, likes := [1] }

/-- Document for the matching scenario. -/
def mDb : Db := { users := [mAmy, mBen] }

/-- Document for the like witness with a comfortable balance. -/
def mDbRich : Db := { users := [{ mAmy with coins := 25 }, mBen] }

/-- Profile already viewed by user 7 at time 100. -/
def vTarget : User := { id := 9, name := "tess", viewers := [⟨7, 100⟩] }

/-- Boost witness profile: 60 coins, boost active for another 10 hours at
time 0. -/
def bUser : User :=
  { id := 1, name := "bea", coins := 60, boostUntil := some (10 * 60 * 60 * 1000) }

/-- Document for the boost witness. -/
def bDb : Db := { users := [bUser] }

/-- Non-boosted candidate of the search scenario, inserted first. -/
def sPlain : User := { id := 11, name := "pam", gender := "f", age := 30 }

/-- Boosted candidate of the search scenario, inserted last. -/
def sBoosted : User :=
  { id := 12, name := "bon", gender := "f", age := 30, boostUntil := some 1000 }

/-- Document for the search scenario (non-boosted user stored first). -/
def sDb : Db := { users := [sPlain, sBoosted] }

/-- Criteria of the search scenario: gender f, bucket 26-35. -/
def sCrit : SearchCriteria := { gender := some "f", ageBucket := some (26, 35) }

/-- Document with one banned and one regular user for the broadcast
scenario. -/
def brDb : Db := { users := [{ id := 3, name := "cal" }, banEve] }

/-- A stored document whose matches collection is absent. -/
def sdNoMatches : StoredDoc :=
  { users := some [], «matches» := none, reports := some [], subAdmins := some [] }

/-- An in-memory document as loaded from sdNoMatches. -/
def ldNoMatches : LoadedDoc :=
  { users := [], «matches» := none, reports := [], subAdmins := [] }

/-- A stored user without a viewers array (written by an older revision). -/
def suOld : StoredUser := { id := 4, name := "old", coins := 10 }

/-- Browsing scenario state: a two-result snapshot with the cursor on the
first entry. -/
def navState : BotState :=
  { db := sDb, cache := some { results := [sBoosted, sPlain], index := 0 } }

/-- Mutations applied after the search in the browsing scenario: the shown
candidate is banned, renamed, and boosted. -/
def navMuts : List Mutation :=
  [.ban 12 true, .editField 12 "name" "zoe", .boost 11 0]

/-! ## General lemmas about the embedding -/

theorem findUser_mem {db : Db} {uid : Nat} {p : User}
    (h : findUser db uid = some p) : p ∈ db.users ∧ p.id = uid := by
  unfold findUser at h
  refine ⟨List.mem_of_find?_eq_some h, ?_⟩
  have := List.find?_some h
  simpa using this

theorem eq_of_mem_of_nodup_ids {db : Db} {uid : Nat} {p u : User}
    (hnd : (db.users.map User.id).Nodup)
    (h : findUser db uid = some p) (hu : u ∈ db.users) (hid : u.id = uid) :
    u = p := by
  obtain ⟨hp, hpid⟩ := findUser_mem h
  exact List.inj_on_of_nodup_map hnd hu hp (by rw [hid, hpid])

theorem users_updateUser (db : Db) (uid : Nat) (f : User → User) :
    (updateUser db uid f).users
      = db.users.map (fun u => if u.id == uid then f u else u) := rfl

theorem nonNeg_updateUser {db : Db} {uid : Nat} {f : User → User}
    (h : nonNegBalances db)
    (hf : ∀ u ∈ db.users, u.id = uid → 0 ≤ (f u).coins) :
    nonNegBalances (updateUser db uid f) := by
  intro v hv
  rw [users_updateUser] at hv
  obtain ⟨u, hu, rfl⟩ := List.mem_map.1 hv
  by_cases hid : u.id = uid
  · rw [if_pos (by simpa using hid)]
    exact hf u hu hid
  · rw [if_neg (by simpa using hid)]
    exact h u hu

theorem nonNeg_of_users_eq {db db' : Db} (h : db'.users = db.users)
    (hdb : nonNegBalances db) : nonNegBalances db' := by
  intro u hu
  exact hdb u (h ▸ hu)

theorem find?_map_update (uid : Nat) (f : User → User) (hf : ∀ u, (f u).id = u.id)
    (l : List User) :
    (l.map (fun u => if u.id == uid then f u else u)).find? (fun u => u.id == uid)
      = (l.find? (fun u => u.id == uid)).map f := by
  induction l with
  | nil => rfl
  | cons u us ih =>
    rw [List.map_cons]
    by_cases hid : (u.id == uid) = true
    · have hfu : ((f u).id == uid) = true := by rw [hf u]; exact hid
      rw [if_pos hid,
        @List.find?_cons_of_pos User (fun v => v.id == uid) (f u) _ hfu,
        @List.find?_cons_of_pos User (fun v => v.id == uid) u _ hid]
      rfl
    · rw [if_neg hid,
        @List.find?_cons_of_neg User (fun v => v.id == uid) u _ hid,
        @List.find?_cons_of_neg User (fun v => v.id == uid) u _ hid]
      exact ih

theorem findUser_updateUser {db : Db} {uid : Nat} {f : User → User}
    (hf : ∀ u, (f u).id = u.id) :
    findUser (updateUser db uid f) uid = (findUser db uid).map f :=
  find?_map_update uid f hf db.users

theorem find?_map_comm (g : User → User) (p : User → Bool)
    (hp : ∀ u, p (g u) = p u) (l : List User) :
    (l.map g).find? p = (l.find? p).map g := by
  induction l with
  | nil => rfl
  | cons u us ih =>
    rw [List.map_cons]
    by_cases hu : p u = true
    · rw [@List.find?_cons_of_pos User p (g u) _ (by rw [hp u]; exact hu),
        @List.find?_cons_of_pos User p u _ hu]
      rfl
    · rw [@List.find?_cons_of_neg User p (g u) _ (by rw [hp u]; exact hu),
        @List.find?_cons_of_neg User p u _ hu]
      exact ih

theorem findUser_updateUser_ne {db : Db} {uid uid' : Nat} {f : User → User}
    (hne : uid ≠ uid') (hf : ∀ u, (f u).id = u.id) :
    findUser (updateUser db uid f) uid' = findUser db uid' := by
  unfold findUser updateUser
  rw [show ({ db with users := db.users.map (fun u => if u.id == uid then f u else u) } : Db).users
        = db.users.map (fun u => if u.id == uid then f u else u) from rfl]
  rw [find?_map_comm _ _ (fun u => by
    by_cases hid : (u.id == uid) = true
    · rw [if_pos hid, hf u]
    · rw [if_neg hid])]
  have : ∀ o : Option User, (∀ v ∈ o, (v.id == uid') = true) →
      o.map (fun u => if u.id == uid then f u else u) = o := by
    intro o ho
    cases o with
    | none => rfl
    | some v =>
      have hv := ho v rfl
      have : ¬ (v.id == uid) = true := by
        intro hcon
        exact hne (by
          have h1 : v.id = uid := by simpa using hcon
          have h2 : v.id = uid' := by simpa using hv
          omega)
      show some (if (v.id == uid) = true then f v else v) = some v
      rw [if_neg this]
  apply this
  intro v hv
  have := List.find?_some hv
  simpa using this

theorem countP_add_countP_not (p : α → Bool) (l : List α) :
    l.countP p + l.countP (fun a => !p a) = l.length := by
  induction l with
  | nil => rfl
  | cons x xs ih =>
    rw [List.countP_cons, List.countP_cons, List.length_cons]
    cases hx : p x <;> simp [hx] <;> omega

/-! ## Stable sort with the boosted-first comparator -/

theorem boostCmp_le_zero_of_boosted {now : Nat} {a : User}
    (ha : isBoosted now a = true) (b : User) : boostCmp now a b ≤ 0 := by
  unfold boostCmp
  rw [ha]
  cases hb : isBoosted now b <;> simp

theorem boostCmp_not_le_zero {now : Nat} {a b : User}
    (ha : isBoosted now a = false) (hb : isBoosted now b = true) :
    ¬ boostCmp now a b ≤ 0 := by
  unfold boostCmp
  rw [ha, hb]
  simp

theorem boostCmp_le_zero_of_unboosted {now : Nat} {a b : User}
    (ha : isBoosted now a = false) (hb : isBoosted now b = false) :
    boostCmp now a b ≤ 0 := by
  unfold boostCmp
  rw [ha, hb]
  simp

theorem insertBy_boosted {now : Nat} {x : User} (hx : isBoosted now x = true)
    (l : List User) : insertBy (boostCmp now) x l = x :: l := by
  cases l with
  | nil => rfl
  | cons y ys =>
    simp only [insertBy]
    rw [if_pos (boostCmp_le_zero_of_boosted hx y)]

theorem insertBy_skip_boosted {now : Nat} {x : User}
    (hx : isBoosted now x = false) {l1 : List User}
    (h1 : ∀ y ∈ l1, isBoosted now y = true) (l2 : List User) :
    insertBy (boostCmp now) x (l1 ++ l2) = l1 ++ insertBy (boostCmp now) x l2 := by
  induction l1 with
  | nil => rfl
  | cons y ys ih =>
    have hy := h1 y (List.mem_cons_self y ys)
    rw [List.cons_append]
    simp only [insertBy]
    rw [if_neg (boostCmp_not_le_zero hx hy), List.cons_append]
    congr 1
    exact ih (fun z hz => h1 z (List.mem_cons_of_mem y hz))

theorem insertBy_unboosted {now : Nat} {x : User} (hx : isBoosted now x = false)
    {l : List User} (hl : ∀ y ∈ l, isBoosted now y = false) :
    insertBy (boostCmp now) x l = x :: l := by
  cases l with
  | nil => rfl
  | cons y ys =>
    have hy := hl y (List.mem_cons_self y ys)
    simp only [insertBy]
    rw [if_pos (boostCmp_le_zero_of_unboosted hx hy)]

theorem sortBy_boostCmp (now : Nat) (l : List User) :
    sortBy (boostCmp now) l
      = l.filter (fun u => isBoosted now u)
        ++ l.filter (fun u => !isBoosted now u) := by
  induction l with
  | nil => rfl
  | cons x xs ih =>
    by_cases hx : isBoosted now x = true
    · rw [sortBy, ih, insertBy_boosted hx]
      simp [List.filter_cons, hx]
    · rw [Bool.not_eq_true] at hx
      rw [sortBy, ih,
        insertBy_skip_boosted hx (fun y hy => (List.mem_filter.1 hy).2) _,
        insertBy_unboosted hx (fun y hy => by
          have := (List.mem_filter.1 hy).2
          simpa using this)]
      simp [List.filter_cons, hx]

theorem boosted_before_unboosted {now : Nat} {A B R : List User} (hR : R = A ++ B)
    (hA : ∀ u ∈ A, isBoosted now u = true) (hB : ∀ u ∈ B, isBoosted now u = false)
    {i j : Nat} (hi : i < R.length) (hj : j < R.length)
    (hbi : isBoosted now R[i] = true)
    (hbj : isBoosted now R[j] = false) : i < j := by
  subst hR
  have hiA : i < A.length := by
    by_contra hge
    push_neg at hge
    have hlt : i - A.length < B.length := by
      rw [List.length_append] at hi
      omega
    rw [List.getElem_append_right hge] at hbi
    have hmem : B[i - A.length] ∈ B := List.getElem_mem hlt
    rw [hB _ hmem] at hbi
    exact Bool.false_ne_true hbi
  have hjB : A.length ≤ j := by
    by_contra hlt
    push_neg at hlt
    rw [List.getElem_append_left hlt] at hbj
    have := hA _ (List.getElem_mem hlt)
    rw [this] at hbj
    exact Bool.false_ne_true hbj.symm
  omega

theorem buyProfileBoost_eq_some {db : Db} {uid now : Nat} {p : User}
    (hp : findUser db uid = some p) :
    buyProfileBoost db uid now =
      if p.coins < 50 then (db, .notEnoughCoins)
      else
        (updateUser db uid
          (fun u => { u with
            coins := u.coins - 50
            boostUntil := some (currentBoostBase p now + dayMs) }),
         .boosted (currentBoostBase p now + dayMs)) := by
  unfold buyProfileBoost
  rw [hp]

theorem handleLikeAction_eq {db : Db} {A B now : Nat} {pa pb : User}
    (ha : findUser db A = some pa) (hb : findUser db B = some pb) :
    handleLikeAction db A B now =
      if pa.coins < 10 then (db, .notEnoughCoins, [])
      else if pa.likes.contains B then (db, .alreadyLiked, [])
      else
        match findUser (updateUser db A
            (fun u => { u with coins := u.coins - 10, likes := u.likes ++ [B] })) B with
        | none => (updateUser db A
            (fun u => { u with coins := u.coins - 10, likes := u.likes ++ [B] }),
            .profileNotFound, [])
        | some likedAfter =>
          if likedAfter.likes.contains A then
            ({ (updateUser db A
                  (fun u => { u with coins := u.coins - 10, likes := u.likes ++ [B] })) with
                «matches» := (updateUser db A
                  (fun u => { u with coins := u.coins - 10, likes := u.likes ++ [B] })).«matches»
                    ++ [(⟨[A, B], now⟩ : MatchRec)] },
             .matched, [A, B])
          else (updateUser db A
              (fun u => { u with coins := u.coins - 10, likes := u.likes ++ [B] }),
              .oneWayLiked, [A]) := by
  unfold handleLikeAction
  rw [ha, hb]

theorem fieldEditAge_eq_none {p : User} {raw : String} (hp : jsParseInt raw = none) :
    fieldEditAge p raw = (p, .rejected) := by
  unfold fieldEditAge
  rw [hp]

theorem fieldEditAge_eq_some {p : User} {raw : String} {a : Int}
    (hp : jsParseInt raw = some a) :
    fieldEditAge p raw
      = if 18 ≤ a ∧ a ≤ 99 then ({ p with age := a }, .updated)
        else (p, .rejected) := by
  unfold fieldEditAge
  rw [hp]

theorem wizardAgeStep_eq_none {p : User} {raw : String} (hp : jsParseInt raw = none) :
    wizardAgeStep p raw = (p, .rejected) := by
  unfold wizardAgeStep
  rw [hp]

theorem wizardAgeStep_eq_some {p : User} {raw : String} {a : Int}
    (hp : jsParseInt raw = some a) :
    wizardAgeStep p raw
      = if a < 18 ∨ 99 < a then (p, .rejected)
        else ({ p with age := a }, .updated) := by
  unfold wizardAgeStep
  rw [hp]

theorem fieldEditAgeIx_eq_none {p : ProfileIx} {raw : String}
    (hp : jsParseInt raw = none) : fieldEditAgeIx p raw = (p, .rejected) := by
  unfold fieldEditAgeIx
  rw [hp]

theorem fieldEditAgeIx_eq_some {p : ProfileIx} {raw : String} {a : Int}
    (hp : jsParseInt raw = some a) :
    fieldEditAgeIx p raw
      = if a < 18 then (p, .rejected) else ({ age := raw }, .updated) := by
  unfold fieldEditAgeIx
  rw [hp]

theorem nonNeg_ite {c : Prop} [Decidable c] {α : Type} {X Y : Db × α}
    (hx : c → nonNegBalances X.1) (hy : ¬ c → nonNegBalances Y.1) :
    nonNegBalances (if c then X else Y).1 := by
  by_cases h : c
  · rw [if_pos h]
    exact hx h
  · rw [if_neg h]
    exact hy h

theorem nonNeg_ite_db {c : Prop} [Decidable c] {X Y : Db}
    (hx : c → nonNegBalances X) (hy : ¬ c → nonNegBalances Y) :
    nonNegBalances (if c then X else Y) := by
  by_cases h : c
  · rw [if_pos h]
    exact hx h
  · rw [if_neg h]
    exact hy h

theorem nonNeg_users_append {db : Db} {l : List User} (hdb : nonNegBalances db)
    (hl : ∀ u ∈ l, 0 ≤ u.coins) :
    ∀ u ∈ db.users ++ l, 0 ≤ u.coins := by
  intro u hu
  rcases List.mem_append.1 hu with h | h
  · exact hdb u h
  · exact hl u h

theorem handleProfileViewers_eq_some {db : Db} {uid : Nat} {p : User}
    (hp : findUser db uid = some p) :
    handleProfileViewers db uid =
      if p.coins < 15 then (db, .notEnoughCoins)
      else (updateUser db uid (fun u => { u with coins := u.coins - 15 }),
            .shown ((sliceLast 10 p.viewers).reverse)) := by
  unfold handleProfileViewers
  rw [hp]

/-! ## Claim theorems -/

/-- C7 (confirmed): the result list of executeSearch contains exactly the
users other than the searcher who are not banned and satisfy the gender,
age-bucket and optional case-insensitive interest-overlap criteria, arranged
as the boosted-and-active candidates in their original stored order followed
by the non-boosted candidates in their original stored order (the stable-sort
partition); consequently every boosted-and-active entry precedes every
non-boosted entry, regardless of where each was inserted. -/
theorem executeSearch_spec (db : Db) (chatId : Nat) (c : SearchCriteria) (now : Nat) :
    executeSearchResults db chatId c now
      = (db.users.filter (matchesCriteria chatId c)).filter (fun u => isBoosted now u)
        ++ (db.users.filter (matchesCriteria chatId c)).filter (fun u => !isBoosted now u)
    ∧ (∀ u, u ∈ executeSearchResults db chatId c now
          ↔ u ∈ db.users ∧ matchesCriteria chatId c u = true)
    ∧ (∀ i j (hi : i < (executeSearchResults db chatId c now).length)
          (hj : j < (executeSearchResults db chatId c now).length),
          isBoosted now (executeSearchResults db chatId c now)[i] = true →
          isBoosted now (executeSearchResults db chatId c now)[j] = false →
          i < j) := by
  have hpart : executeSearchResults db chatId c now
      = (db.users.filter (matchesCriteria chatId c)).filter (fun u => isBoosted now u)
        ++ (db.users.filter (matchesCriteria chatId c)).filter (fun u => !isBoosted now u) :=
    sortBy_boostCmp now _
  refine ⟨hpart, ?_, ?_⟩
  · intro u
    rw [hpart]
    simp only [List.mem_append, List.mem_filter]
    constructor
    · rintro (⟨⟨hu, hc⟩, _⟩ | ⟨⟨hu, hc⟩, _⟩) <;> exact ⟨hu, hc⟩
    · rintro ⟨hu, hc⟩
      cases hb : isBoosted now u
      · exact Or.inr ⟨⟨hu, hc⟩, rfl⟩
      · exact Or.inl ⟨⟨hu, hc⟩, rfl⟩
  · intro i j hi hj hbi hbj
    exact boosted_before_unboosted hpart
      (fun u hu => (List.mem_filter.1 hu).2)
      (fun u hu => by
        have := (List.mem_filter.1 hu).2
        simpa using this) hi hj hbi hbj

/-- C7 witness: in the concrete two-user document where the non-boosted
candidate is stored first, the boosted candidate is ranked first, and the
precedence conjunct of the search theorem applies at indices 0 and 1. -/
theorem executeSearch_spec_witness :
    executeSearchResults sDb 5 sCrit 0 = [sBoosted, sPlain] ∧ (0 : Nat) < 1 :=
  ⟨by decide,
   (executeSearch_spec sDb 5 sCrit 0).2.2 0 1 (by decide) (by decide)
     (by decide) (by decide)⟩

/-- C6 (confirmed): with balance at least 50 a boost purchase deducts exactly
50 coins and sets boostUntil to 24 hours after the later of now and the
current still-active boost expiry (stacking accumulates duration); with
balance below 50 the purchase is refused and the document is unchanged. -/
theorem boost_purchase_spec (db : Db) (uid : Nat) (now : Nat) :
    (∀ p, findUser db uid = some p → p.coins < 50 →
      buyProfileBoost db uid now = (db, .notEnoughCoins))
    ∧ (∀ p b, findUser db uid = some p → 50 ≤ p.coins →
        p.boostUntil = some b → now < b →
        buyProfileBoost db uid now
          = (updateUser db uid
              (fun u => { u with coins := u.coins - 50, boostUntil := some (b + dayMs) }),
             .boosted (b + dayMs))
        ∧ findUser (buyProfileBoost db uid now).1 uid
            = some { p with coins := p.coins - 50, boostUntil := some (b + dayMs) })
    ∧ (∀ p, findUser db uid = some p → 50 ≤ p.coins →
        (p.boostUntil = none ∨ ∃ b, p.boostUntil = some b ∧ b ≤ now) →
        buyProfileBoost db uid now
          = (updateUser db uid
              (fun u => { u with coins := u.coins - 50, boostUntil := some (now + dayMs) }),
             .boosted (now + dayMs))) := by
  refine ⟨?_, ?_, ?_⟩
  · intro p hp hc
    rw [buyProfileBoost_eq_some hp, if_pos hc]
  · intro p b hp hc hb hnow
    have hcb : currentBoostBase p now = b := by
      unfold currentBoostBase
      rw [hb]
      show (if now < b then b else now) = b
      rw [if_pos hnow]
    have he : buyProfileBoost db uid now
        = (updateUser db uid
            (fun u => { u with coins := u.coins - 50, boostUntil := some (b + dayMs) }),
           .boosted (b + dayMs)) := by
      rw [buyProfileBoost_eq_some hp, if_neg (not_lt.2 hc), hcb]
    refine ⟨he, ?_⟩
    rw [he]
    show findUser (updateUser db uid
      (fun u => { u with coins := u.coins - 50, boostUntil := some (b + dayMs) })) uid = _
    rw [@findUser_updateUser db uid
      (fun u => { u with coins := u.coins - 50, boostUntil := some (b + dayMs) })
      (fun u => rfl), hp]
    rfl
  · intro p hp hc hbo
    have hcb : currentBoostBase p now = now := by
      unfold currentBoostBase
      rcases hbo with hnone | ⟨b, hb, hble⟩
      · rw [hnone]
      · rw [hb]
        show (if now < b then b else now) = now
        rw [if_neg (not_lt.2 hble)]
    rw [buyProfileBoost_eq_some hp, if_neg (not_lt.2 hc), hcb]

/-- C6 witness: with 60 coins and a boost that still has 10 hours to run at
time 0, the purchase leaves 10 coins and a boost expiring 34 hours from now,
not 24. -/
theorem boost_purchase_spec_witness :
    findUser (buyProfileBoost bDb 1 0).1 1
      = some { bUser with coins := 10, boostUntil := some (34 * 60 * 60 * 1000) }
    ∧ (buyProfileBoost bDb 1 0).2 = .boosted (34 * 60 * 60 * 1000) := by
  have h := (boost_purchase_spec bDb 1 0).2.1 bUser (10 * 60 * 60 * 1000)
    (by decide) (by decide) (by decide) (by decide)
  constructor
  · rw [h.2]
    decide
  · rw [h.1]
    decide

/-- C3 counterexample: in the document where amy (15 coins) likes ben who
already likes her, the first like matches, but the immediate re-like is
reported as not-enough-coins rather than already-liked, because the source
checks the balance before the already-liked condition and the first like
dropped the balance to 5. -/
theorem like_relike_counterexample :
    (handleLikeAction mDb 1 2 100).2.1 = .matched
    ∧ (handleLikeAction (handleLikeAction mDb 1 2 100).1 1 2 200).2.1
        = .notEnoughCoins
    ∧ ¬ (handleLikeAction (handleLikeAction mDb 1 2 100).1 1 2 200).2.1
        = .alreadyLiked := by
  refine ⟨by decide, by decide, by decide⟩

/-- C3 (corrected): when A has at least 10 coins, has not liked B yet, and B
already likes A, the like deducts 10 coins, appends B to A's likes, creates
exactly one match record for the unordered pair and notifies both users; a
re-like attempt is a no-op that leaves the document unchanged, but it is
reported as already-liked only when A still holds at least 10 coins
(starting balance at least 20); when the first like dropped the balance below
10 the re-like is reported as not-enough-coins, the balance check coming
first.  A like with balance below 10 changes nothing and neither decrements
the balance nor appends to the likes list. -/
theorem like_match_spec (db : Db) (A B : Nat) (now now2 : Nat) :
    (∀ pa pb, findUser db A = some pa → findUser db B = some pb → A ≠ B →
      10 ≤ pa.coins → B ∉ pa.likes → A ∈ pb.likes →
      (handleLikeAction db A B now).2.1 = .matched
      ∧ (handleLikeAction db A B now).2.2 = [A, B]
      ∧ (handleLikeAction db A B now).1.«matches» = db.«matches» ++ [⟨[A, B], now⟩]
      ∧ pairMatchCount (handleLikeAction db A B now).1 A B
          = pairMatchCount db A B + 1
      ∧ findUser (handleLikeAction db A B now).1 A
          = some { pa with coins := pa.coins - 10, likes := pa.likes ++ [B] }
      ∧ (handleLikeAction (handleLikeAction db A B now).1 A B now2).1
          = (handleLikeAction db A B now).1
      ∧ (20 ≤ pa.coins →
          handleLikeAction (handleLikeAction db A B now).1 A B now2
            = ((handleLikeAction db A B now).1, .alreadyLiked, []))
      ∧ (pa.coins < 20 →
          handleLikeAction (handleLikeAction db A B now).1 A B now2
            = ((handleLikeAction db A B now).1, .notEnoughCoins, [])))
    ∧ (∀ pa, findUser db A = some pa → pa.coins < 10 →
        (handleLikeAction db A B now).1 = db
        ∧ ∀ pb, findUser db B = some pb →
            handleLikeAction db A B now = (db, .notEnoughCoins, [])) := by
  constructor
  · intro pa pb ha hb hne h10 hnotin hmutual
    have hcontains : pa.likes.contains B = false := by simpa using hnotin
    have hfid : ∀ u : User,
        ((fun u : User => { u with coins := u.coins - 10, likes := u.likes ++ [B] }) u).id
          = u.id := fun u => rfl
    have hb1 : findUser
        (updateUser db A (fun u => { u with coins := u.coins - 10, likes := u.likes ++ [B] })) B
          = some pb := by
      rw [findUser_updateUser_ne hne hfid, hb]
    have hmut : pb.likes.contains A = true := by simpa using hmutual
    have he : handleLikeAction db A B now
        = ({ (updateUser db A (fun u => { u with coins := u.coins - 10, likes := u.likes ++ [B] }))
              with «matches» :=
                (updateUser db A (fun u => { u with coins := u.coins - 10, likes := u.likes ++ [B] })).«matches»
                  ++ [(⟨[A, B], now⟩ : MatchRec)] },
           .matched, [A, B]) := by
      rw [handleLikeAction_eq ha hb, if_neg (not_lt.2 h10), hcontains]
      simp only [Bool.false_eq_true, if_false, hb1, hmut, if_pos]
    have husers : (updateUser db A
        (fun u => { u with coins := u.coins - 10, likes := u.likes ++ [B] })).«matches»
          = db.«matches» := rfl
    have hfinda : findUser (handleLikeAction db A B now).1 A
        = some { pa with coins := pa.coins - 10, likes := pa.likes ++ [B] } := by
      rw [he]
      show findUser
        (updateUser db A (fun u => { u with coins := u.coins - 10, likes := u.likes ++ [B] })) A
          = _
      rw [findUser_updateUser hfid, ha]
      rfl
    have hfindb : findUser (handleLikeAction db A B now).1 B = some pb := by
      rw [he]
      exact hb1
    have hsecond : handleLikeAction (handleLikeAction db A B now).1 A B now2
        = if pa.coins - 10 < 10 then ((handleLikeAction db A B now).1, .notEnoughCoins, [])
          else ((handleLikeAction db A B now).1, .alreadyLiked, []) := by
      rw [handleLikeAction_eq hfinda hfindb]
      by_cases hlt : pa.coins - 10 < 10
      · rw [if_pos hlt, if_pos hlt]
      · rw [if_neg hlt, if_neg hlt]
        rw [if_pos (by simp)]
    refine ⟨by rw [he], by rw [he], ?_, ?_, hfinda, ?_, ?_, ?_⟩
    · rw [he]
      show db.«matches» ++ [(⟨[A, B], now⟩ : MatchRec)]
        = db.«matches» ++ [(⟨[A, B], now⟩ : MatchRec)]
      rfl
    · unfold pairMatchCount
      rw [he]
      show (db.«matches» ++ [(⟨[A, B], now⟩ : MatchRec)]).countP _ = _
      rw [List.countP_append]
      have : ([(⟨[A, B], now⟩ : MatchRec)]).countP
          (fun m => m.users == [A, B] || m.users == [B, A]) = 1 := by
        rw [List.countP_cons]
        simp
      rw [this]
    · rw [hsecond]
      by_cases hlt : pa.coins - 10 < 10
      · rw [if_pos hlt]
      · rw [if_neg hlt]
    · intro h20
      rw [hsecond, if_neg (by omega)]
    · intro h20
      rw [hsecond, if_pos (by omega)]
  · intro pa ha hlt
    constructor
    · cases hb : findUser db B with
      | none =>
        unfold handleLikeAction
        rw [ha, hb]
      | some pb =>
        rw [handleLikeAction_eq ha hb, if_pos hlt]
    · intro pb hb
      rw [handleLikeAction_eq ha hb, if_pos hlt]

/-- C3 witness: with 25 coins the like matches, both parties are notified,
exactly the one match record for the pair exists afterwards, and the re-like
is the already-liked no-op. -/
theorem like_match_spec_witness :
    (handleLikeAction mDbRich 1 2 100).2.1 = .matched
    ∧ (handleLikeAction mDbRich 1 2 100).2.2 = [1, 2]
    ∧ (handleLikeAction mDbRich 1 2 100).1.«matches» = [(⟨[1, 2], 100⟩ : MatchRec)]
    ∧ handleLikeAction (handleLikeAction mDbRich 1 2 100).1 1 2 200
        = ((handleLikeAction mDbRich 1 2 100).1, .alreadyLiked, []) := by
  have h := (like_match_spec mDbRich 1 2 100 200).1
    { mAmy with coins := 25 } mBen (by decide) (by decide) (by decide)
    (by decide) (by decide) (by decide)
  refine ⟨h.1, h.2.1, ?_, h.2.2.2.2.2.2.1 (by decide)⟩
  rw [h.2.2.1]
  decide

/-- C4 counterexample: the src/index.js field edit accepts age 100 — its only
check is that parseInt is not NaN and at least 18 — and overwrites the
profile with the raw text, while the claim requires 100 to be rejected
without mutation; the src/index.js wizard age step stores arbitrary text with
no validation at all. -/
theorem age_edit_counterexample :
    fieldEditAgeIx { age := "25" } "100" = ({ age := "100" }, .updated)
    ∧ ¬ (fieldEditAgeIx { age := "25" } "100").2 = .rejected
    ∧ wizardAgeStepIx { age := "25" } "abc" = { age := "abc" } := by
  refine ⟨by decide, by decide, by decide⟩

/-- C4 (corrected): the part_002 single-field age edit accepts exactly the
inputs whose parseInt value a satisfies 18 ≤ a ≤ 99, stores the parsed
integer, and rejects everything else (17 and 100 included) without mutating
the profile, the wizard age step behaving identically; the src/index.js
revision instead accepts any input whose parseInt value is at least 18 — 100
included — and stores the raw text, and its wizard age step does not
validate. -/
theorem age_edit_spec :
    (∀ p raw,
      ((fieldEditAge p raw).2 = .updated
          ↔ ∃ a, jsParseInt raw = some a ∧ 18 ≤ a ∧ a ≤ 99)
      ∧ (∀ a, jsParseInt raw = some a → 18 ≤ a → a ≤ 99 →
          fieldEditAge p raw = ({ p with age := a }, .updated))
      ∧ ((fieldEditAge p raw).2 = .rejected → (fieldEditAge p raw).1 = p)
      ∧ wizardAgeStep p raw = fieldEditAge p raw)
    ∧ (∀ p raw,
        ((fieldEditAgeIx p raw).2 = .updated
            ↔ ∃ a, jsParseInt raw = some a ∧ 18 ≤ a)
        ∧ ((fieldEditAgeIx p raw).2 = .rejected → (fieldEditAgeIx p raw).1 = p)) := by
  constructor
  · intro p raw
    refine ⟨?_, ?_, ?_, ?_⟩
    · constructor
      · intro hup
        cases hp : jsParseInt raw with
        | none =>
          rw [fieldEditAge_eq_none hp] at hup
          cases hup
        | some a =>
          by_cases hr : 18 ≤ a ∧ a ≤ 99
          · exact ⟨a, rfl, hr.1, hr.2⟩
          · rw [fieldEditAge_eq_some hp, if_neg hr] at hup
            cases hup
      · rintro ⟨a, hp, h1, h2⟩
        rw [fieldEditAge_eq_some hp, if_pos ⟨h1, h2⟩]
    · intro a hp h1 h2
      rw [fieldEditAge_eq_some hp, if_pos ⟨h1, h2⟩]
    · intro hrej
      cases hp : jsParseInt raw with
      | none => rw [fieldEditAge_eq_none hp]
      | some a =>
        by_cases hr : 18 ≤ a ∧ a ≤ 99
        · rw [fieldEditAge_eq_some hp, if_pos hr] at hrej
          cases hrej
        · rw [fieldEditAge_eq_some hp, if_neg hr]
    · cases hp : jsParseInt raw with
      | none => rw [wizardAgeStep_eq_none hp, fieldEditAge_eq_none hp]
      | some a =>
        rw [wizardAgeStep_eq_some hp, fieldEditAge_eq_some hp]
        by_cases hr : 18 ≤ a ∧ a ≤ 99
        · rw [if_neg (show ¬ (a < 18 ∨ 99 < a) by omega), if_pos hr]
        · rw [if_pos (show a < 18 ∨ 99 < a by omega), if_neg hr]
  · intro p raw
    constructor
    · constructor
      · intro hup
        cases hp : jsParseInt raw with
        | none =>
          rw [fieldEditAgeIx_eq_none hp] at hup
          cases hup
        | some a =>
          by_cases hr : a < 18
          · rw [fieldEditAgeIx_eq_some hp, if_pos hr] at hup
            cases hup
          · exact ⟨a, rfl, by omega⟩
      · rintro ⟨a, hp, h1⟩
        rw [fieldEditAgeIx_eq_some hp, if_neg (show ¬ a < 18 by omega)]
    · intro hrej
      cases hp : jsParseInt raw with
      | none => rw [fieldEditAgeIx_eq_none hp]
      | some a =>
        by_cases hr : a < 18
        · rw [fieldEditAgeIx_eq_some hp, if_pos hr]
        · rw [fieldEditAgeIx_eq_some hp, if_neg hr] at hrej
          cases hrej

/-- C4 witness: ages 18 and 99 are accepted and stored, 17 and 100 are
rejected with the profile untouched (part_002), and the theorem's index.js
clause admits the raw-text acceptance of 100. -/
theorem age_edit_spec_witness :
    fieldEditAge { id := 1, age := 25 } "18" = ({ id := 1, age := 18 }, .updated)
    ∧ fieldEditAge { id := 1, age := 25 } "99" = ({ id := 1, age := 99 }, .updated)
    ∧ (fieldEditAge { id := 1, age := 25 } "17").1 = { id := 1, age := 25 }
    ∧ (fieldEditAge { id := 1, age := 25 } "100").1 = { id := 1, age := 25 }
    ∧ (fieldEditAgeIx { age := "25" } "100").2 = .updated := by
  have h18 := ((age_edit_spec.1 { id := 1, age := 25 } "18").2.1) 18 (by decide)
    (by decide) (by decide)
  have h99 := ((age_edit_spec.1 { id := 1, age := 25 } "99").2.1) 99 (by decide)
    (by decide) (by decide)
  have h17 := (age_edit_spec.1 { id := 1, age := 25 } "17").2.2.1 (by decide)
  have h100 := (age_edit_spec.1 { id := 1, age := 25 } "100").2.2.1 (by decide)
  have hx := (age_edit_spec.2 { age := "25" } "100").1.2 ⟨100, by decide, by decide⟩
  exact ⟨h18, h99, h17, h100, hx⟩

/-- C5 counterexample: a repeat view does not refresh the stored timestamp:
after viewer 7 is shown tess again at time 200, the stored entry still
carries the original viewing time 100, not the most recent one. -/
theorem viewers_timestamp_counterexample :
    recordView vTarget 7 200 = vTarget
    ∧ (recordView vTarget 7 200).viewers = [⟨7, 100⟩]
    ∧ ¬ (recordView vTarget 7 200).viewers = [⟨7, 200⟩] := by
  refine ⟨by decide, by decide, by decide⟩

/-- C5 (corrected): after a candidate is shown to a searcher the candidate's
viewers list holds exactly one entry for that searcher (dedup by viewer id)
and never exceeds the cap of 20: a first view appends an entry carrying the
current time and truncates to the last 20 entries, while a repeat view leaves
the list — including the originally recorded timestamp — unchanged. -/
theorem viewers_dedup_cap (t : User) (vid now : Nat)
    (hcount : t.viewers.countP (fun v => v.id == vid) ≤ 1) :
    (t.viewers.find? (fun v => v.id == vid) = none →
        (recordView t vid now).viewers = sliceLast 20 (t.viewers ++ [⟨vid, now⟩])
        ∧ (recordView t vid now).viewers.countP (fun v => v.id == vid) = 1
        ∧ (recordView t vid now).viewers.length ≤ 20)
    ∧ ((t.viewers.find? (fun v => v.id == vid)).isSome = true →
        recordView t vid now = t
        ∧ (recordView t vid now).viewers.countP (fun v => v.id == vid) = 1)
    ∧ (t.viewers.length ≤ 20 → (recordView t vid now).viewers.length ≤ 20) := by
  have hk : t.viewers.length + 1 - 20 ≤ t.viewers.length := by omega
  have hslice : sliceLast 20 (t.viewers ++ [(⟨vid, now⟩ : Viewer)])
      = t.viewers.drop (t.viewers.length + 1 - 20) ++ [⟨vid, now⟩] := by
    unfold sliceLast
    rw [List.length_append]
    rw [show (t.viewers.length + List.length [(⟨vid, now⟩ : Viewer)]) = t.viewers.length + 1
      from rfl]
    exact List.drop_append_of_le_length hk
  refine ⟨?_, ?_, ?_⟩
  · intro hnone
    have habs : recordView t vid now
        = { t with viewers := sliceLast 20 (t.viewers ++ [⟨vid, now⟩]) } := by
      unfold recordView
      rw [hnone]
      rfl
    have hzero : t.viewers.countP (fun v => v.id == vid) = 0 :=
      List.countP_eq_zero.2 (List.find?_eq_none.1 hnone)
    have hdropzero : (t.viewers.drop (t.viewers.length + 1 - 20)).countP
        (fun v => v.id == vid) = 0 :=
      Nat.eq_zero_of_le_zero
        (le_trans (List.Sublist.countP_le _ (List.drop_sublist _ _)) (le_of_eq hzero))
    refine ⟨by rw [habs], ?_, ?_⟩
    · rw [habs]
      show (sliceLast 20 (t.viewers ++ [(⟨vid, now⟩ : Viewer)])).countP _ = 1
      rw [hslice, List.countP_append, hdropzero, List.countP_cons]
      simp
    · rw [habs]
      show (sliceLast 20 (t.viewers ++ [(⟨vid, now⟩ : Viewer)])).length ≤ 20
      rw [hslice, List.length_append, List.length_drop]
      show t.viewers.length - (t.viewers.length + 1 - 20) + 1 ≤ 20
      omega
  · intro hsome
    have heq : recordView t vid now = t := by
      unfold recordView
      rw [if_pos hsome]
    obtain ⟨v, hv⟩ := Option.isSome_iff_exists.1 hsome
    have hvmem := List.mem_of_find?_eq_some hv
    have hvp := List.find?_some hv
    have hpos : 0 < t.viewers.countP (fun x => x.id == vid) :=
      List.countP_pos_iff.2 ⟨v, hvmem, hvp⟩
    exact ⟨heq, by rw [heq]; omega⟩
  · intro hlen
    cases hfind : (t.viewers.find? (fun v => v.id == vid)).isSome with
    | true =>
      have heq : recordView t vid now = t := by
        unfold recordView
        rw [if_pos hfind]
      rw [heq]
      exact hlen
    | false =>
      have hnone : t.viewers.find? (fun v => v.id == vid) = none :=
        Option.not_isSome_iff_eq_none.1 (by rw [hfind]; exact Bool.false_ne_true)
      have habs : recordView t vid now
          = { t with viewers := sliceLast 20 (t.viewers ++ [⟨vid, now⟩]) } := by
        unfold recordView
        rw [hnone]
        rfl
      rw [habs]
      show (sliceLast 20 (t.viewers ++ [(⟨vid, now⟩ : Viewer)])).length ≤ 20
      rw [hslice, List.length_append, List.length_drop]
      show t.viewers.length - (t.viewers.length + 1 - 20) + 1 ≤ 20
      omega

/-- C5 witness: viewer 7 is already recorded, so the repeat view at time 200
changes nothing; fresh viewer 8 is appended with exactly one entry. -/
theorem viewers_dedup_cap_witness :
    recordView vTarget 8 300 = { vTarget with viewers := [⟨7, 100⟩, ⟨8, 300⟩] }
    ∧ (recordView vTarget 8 300).viewers.countP (fun v => v.id == 8) = 1
    ∧ (recordView vTarget 8 300).viewers.length ≤ 20
    ∧ recordView vTarget 7 200 = vTarget := by
  have h1 := (viewers_dedup_cap vTarget 8 300 (by decide)).1 (by decide)
  have h2 := ((viewers_dedup_cap vTarget 7 200 (by decide)).2.1 (by decide)).1
  refine ⟨?_, h1.2.1, h1.2.2, h2⟩
  have := h1.1
  unfold recordView at this ⊢
  rw [show (vTarget.viewers.find? (fun v => v.id == 8)).isSome = false from by decide]
  show ({ vTarget with viewers := sliceLast 20 (vTarget.viewers ++ [⟨8, 300⟩]) } : User) = _
  rw [show sliceLast 20 (vTarget.viewers ++ [(⟨8, 300⟩ : Viewer)])
    = [⟨7, 100⟩, ⟨8, 300⟩] from by decide]

/-- C1 counterexample: alice holds 50 coins and every balance is
non-negative; the gifting amount step validates a 50-coin gift to bob, a
boost purchase (dispatched by the same callback router) then spends the 50
coins, and the gift confirmation — which re-reads balances but re-validates
nothing — applies the stored transfer anyway, leaving alice at -50 coins. -/
theorem gift_confirm_negative_counterexample :
    nonNegBalances gcDb
    ∧ giftAmountEntry gcDb 1 2 "50" = (.giftingConfirm 2 50, .askConfirm)
    ∧ messageRouterP2 gcDb gcSessions 1 "50"
        = (gcDb, [(1, .giftingConfirm 2 50)], .handled)
    ∧ (findUser
        (callbackRouterP2
          (callbackRouterP2 gcDb [(1, SessionState.giftingConfirm 2 50)] 1 .storeBoost 0).1
          [(1, SessionState.giftingConfirm 2 50)] 1 .giftConfirmBtn 0).1 1).map User.coins
      = some (-50)
    ∧ ¬ nonNegBalances
        (callbackRouterP2
          (callbackRouterP2 gcDb [(1, SessionState.giftingConfirm 2 50)] 1 .storeBoost 0).1
          [(1, SessionState.giftingConfirm 2 50)] 1 .giftConfirmBtn 0).1 := by
  refine ⟨by decide, by decide, by decide, by decide, by decide⟩

/-- C1 (corrected): on a document with unique user ids and non-negative
balances, the like, daily-bonus, boost-purchase, view-viewers, admin-grant
and referral / shell-creation operations all preserve non-negative balances
(and the gifting recipient and amount validation steps return only a session
state, never touching the document); the gift confirmation preserves
non-negativity only under the extra assumption that the sender's balance at
confirmation time still covers the stored non-negative amount — without it
the confirmation can drive the sender negative, as the counterexample
shows. -/
theorem coin_ledger_nonneg (db : Db) (hdb : nonNegBalances db)
    (hnd : (db.users.map User.id).Nodup) :
    (∀ A B now, nonNegBalances (handleLikeAction db A B now).1)
    ∧ (∀ uid now, nonNegBalances (handleDailyBonus db uid now).1)
    ∧ (∀ uid now, nonNegBalances (buyProfileBoost db uid now).1)
    ∧ (∀ uid, nonNegBalances (handleProfileViewers db uid).1)
    ∧ (∀ target raw, nonNegBalances (handleCoinGrant db target raw).1)
    ∧ (∀ uid code newCode, nonNegBalances (handleStartCommand db uid code newCode))
    ∧ (∀ sender target amount, 0 ≤ amount →
        (∀ u ∈ db.users, u.id = sender → amount ≤ u.coins) →
        nonNegBalances (giftConfirm db sender target amount)) := by
  refine ⟨?_, ?_, ?_, ?_, ?_, ?_, ?_⟩
  · intro A B now
    cases ha : findUser db A with
    | none =>
      unfold handleLikeAction
      rw [ha]
      exact hdb
    | some pa =>
      cases hb : findUser db B with
      | none =>
        unfold handleLikeAction
        rw [ha, hb]
        exact hdb
      | some pb =>
        rw [handleLikeAction_eq ha hb]
        refine nonNeg_ite (fun _ => hdb) (fun h10 => ?_)
        refine nonNeg_ite (fun _ => hdb) (fun _ => ?_)
        have hdb1 : nonNegBalances (updateUser db A
            (fun u => { u with coins := u.coins - 10, likes := u.likes ++ [B] })) := by
          apply nonNeg_updateUser hdb
          intro u hu hid
          have he := eq_of_mem_of_nodup_ids hnd ha hu hid
          subst he
          show (0 : Int) ≤ u.coins - 10
          omega
        cases hf : findUser (updateUser db A
            (fun u => { u with coins := u.coins - 10, likes := u.likes ++ [B] })) B with
        | none => exact hdb1
        | some la =>
          exact nonNeg_ite (fun _ u hu => hdb1 u hu) (fun _ => hdb1)
  · intro uid now
    cases hp : findUser db uid with
    | none =>
      unfold handleDailyBonus
      rw [hp]
      exact hdb
    | some p =>
      unfold handleDailyBonus
      rw [hp]
      refine nonNeg_ite (fun _ => hdb) (fun _ => ?_)
      apply nonNeg_updateUser hdb
      intro u hu _
      have := hdb u hu
      show (0 : Int) ≤ u.coins + 25
      omega
  · intro uid now
    cases hp : findUser db uid with
    | none =>
      unfold buyProfileBoost
      rw [hp]
      exact hdb
    | some p =>
      rw [buyProfileBoost_eq_some hp]
      refine nonNeg_ite (fun _ => hdb) (fun hc => ?_)
      apply nonNeg_updateUser hdb
      intro u hu hid
      have he := eq_of_mem_of_nodup_ids hnd hp hu hid
      subst he
      show (0 : Int) ≤ u.coins - 50
      omega
  · intro uid
    cases hp : findUser db uid with
    | none =>
      unfold handleProfileViewers
      rw [hp]
      exact hdb
    | some p =>
      rw [handleProfileViewers_eq_some hp]
      refine nonNeg_ite (fun _ => hdb) (fun hc => ?_)
      apply nonNeg_updateUser hdb
      intro u hu hid
      have he := eq_of_mem_of_nodup_ids hnd hp hu hid
      subst he
      show (0 : Int) ≤ u.coins - 15
      omega
  · intro target raw
    cases hr : jsParseInt raw with
    | none =>
      unfold handleCoinGrant
      rw [hr]
      exact hdb
    | some amount =>
      unfold handleCoinGrant
      rw [hr]
      refine nonNeg_ite (fun _ => hdb) (fun hpos => ?_)
      cases hp : findUser db target with
      | none => exact hdb
      | some p =>
        apply nonNeg_updateUser hdb
        intro u hu _
        have := hdb u hu
        show (0 : Int) ≤ u.coins + amount
        omega
  · intro uid code newCode
    unfold handleStartCommand
    by_cases hex : (findUser db uid).isSome = true
    · rw [if_pos hex]
      exact hdb
    · rw [if_neg hex]
      cases hr : referrerFor db code with
      | none =>
        intro u hu
        refine nonNeg_users_append hdb ?_ u hu
        intro v hv
        rw [List.mem_singleton] at hv
        subst hv
        show (0 : Int) ≤ 100
        norm_num
      | some r =>
        refine nonNeg_ite_db ?_ ?_
        · intro _
          intro u hu
          refine nonNeg_users_append
            (nonNeg_updateUser hdb (fun v hv _ => by
              have := hdb v hv
              show (0 : Int) ≤ v.coins + 50
              omega)) ?_ u hu
          intro v hv
          rw [List.mem_singleton] at hv
          subst hv
          show (0 : Int) ≤ 100 + 25
          norm_num
        · intro _
          intro u hu
          refine nonNeg_users_append hdb ?_ u hu
          intro v hv
          rw [List.mem_singleton] at hv
          subst hv
          show (0 : Int) ≤ 100
          norm_num
  · intro sender target amount h0 hcover
    unfold giftConfirm
    by_cases hex : ((findUser db sender).isSome && (findUser db target).isSome) = true
    · rw [if_pos hex]
      apply nonNeg_updateUser
      · apply nonNeg_updateUser hdb
        intro u hu hid
        have := hcover u hu hid
        show (0 : Int) ≤ u.coins - amount
        omega
      · intro u hu _
        rw [users_updateUser] at hu
        obtain ⟨v, hv, rfl⟩ := List.mem_map.1 hu
        by_cases hvid : (v.id == sender) = true
        · rw [if_pos hvid]
          have := hcover v hv (by simpa using hvid)
          show (0 : Int) ≤ v.coins - amount + amount
          omega
        · rw [if_neg hvid]
          have := hdb v hv
          show (0 : Int) ≤ v.coins + amount
          omega
    · rw [if_neg hex]
      exact hdb

/-- C1 witness: the preservation theorem applied to the concrete two-user
document of the gift scenario: a like, a daily bonus, a boost and a covered
gift confirmation all keep every balance non-negative. -/
theorem coin_ledger_nonneg_witness :
    nonNegBalances gcDb
    ∧ nonNegBalances (handleLikeAction gcDb 1 2 0).1
    ∧ nonNegBalances (handleDailyBonus gcDb 1 0).1
    ∧ nonNegBalances (buyProfileBoost gcDb 1 0).1
    ∧ nonNegBalances (giftConfirm gcDb 1 2 30) := by
  have h := coin_ledger_nonneg gcDb (by decide) (by decide)
  exact ⟨by decide, h.1 1 2 0, h.2.1 1 0, h.2.2.1 1 0,
    h.2.2.2.2.2.2 1 2 30 (by decide) (by decide)⟩

/-- C2 counterexample: the src/index.js callback router has no banned guard:
banned eve triggers the store-boost action and the purchase runs, mutating
the document (her balance drops from 100 to 50), instead of the fixed
rejection with no further processing. -/
theorem banned_callback_counterexample :
    bannedUser banDb 7 = true
    ∧ (callbackRouterIx banDb [] 7 .storeBoost 0).2.2 = .handled
    ∧ ¬ (callbackRouterIx banDb [] 7 .storeBoost 0).1 = banDb
    ∧ (findUser (callbackRouterIx banDb [] 7 .storeBoost 0).1 7).map User.coins
        = some 50 := by
  refine ⟨by decide, by decide, by decide, by decide⟩

/-- C2 (corrected): the banned guard holds in the handlers the claim cites
apart from one: the src/index.js message router, the part_002 message router
and the part_002 callback router reject a banned user at the top with the
fixed rejection (message or alert), and neither the document nor the session
registry changes, with no routed action running; the src/index.js callback
router, however, has no banned guard and executes the routed action even for
banned users, as the counterexample shows. -/
theorem banned_rejection_spec (db : Db) (ss : Sessions) (chatId : Nat)
    (hban : bannedUser db chatId = true) :
    (∀ text, messageRouterIx db ss chatId text = (db, ss, .bannedMessage))
    ∧ (∀ text, messageRouterP2 db ss chatId text = (db, ss, .bannedMessage))
    ∧ (∀ q now, callbackRouterP2 db ss chatId q now = (db, ss, .bannedAlert)) := by
  refine ⟨?_, ?_, ?_⟩
  · intro text
    unfold messageRouterIx
    rw [if_pos hban]
  · intro text
    unfold messageRouterP2
    rw [if_pos hban]
  · intro q now
    unfold callbackRouterP2
    rw [if_pos hban]

/-- C2 witness: banned eve is rejected by the src/index.js message router
and by both part_002 routers, with both stores unchanged. -/
theorem banned_rejection_spec_witness :
    messageRouterIx banDb [] 7 "hello" = (banDb, [], .bannedMessage)
    ∧ messageRouterP2 banDb [] 7 "hello" = (banDb, [], .bannedMessage)
    ∧ callbackRouterP2 banDb [] 7 .storeBoost 0 = (banDb, [], .bannedAlert) := by
  have h := banned_rejection_spec banDb [] 7 (by decide)
  exact ⟨h.1 "hello", h.2.1 "hello", h.2.2 .storeBoost 0⟩

/-- C8 counterexample: handleBroadcast iterates Object.keys(db.users) with no
ban filter: banned eve is among the attempted recipients, so the attempted
set differs from the set of non-banned users. -/
theorem broadcast_recipients_counterexample :
    (7 : Nat) ∈ broadcastRecipients brDb
    ∧ bannedUser brDb 7 = true
    ∧ ¬ broadcastRecipients brDb
        = (brDb.users.filter (fun u => !u.banned)).map (fun u => u.id) := by
  refine ⟨by decide, by decide, by decide⟩

/-- C8 (corrected): the broadcast is attempted sequentially, with the fixed
100 ms inter-send delay, for every stored user — banned users included — and
for every delivery outcome the reported success and failure counts sum to the
number of attempted recipients. -/
theorem broadcast_counts_spec (db : Db) (delivers : Nat → Bool) :
    broadcastRecipients db = db.users.map (fun u => u.id)
    ∧ (∀ u ∈ db.users, u.id ∈ broadcastRecipients db)
    ∧ (broadcastCounts db delivers).1 + (broadcastCounts db delivers).2
        = (broadcastRecipients db).length := by
  refine ⟨rfl, ?_, ?_⟩
  · intro u hu
    exact List.mem_map.2 ⟨u, hu, rfl⟩
  · exact countP_add_countP_not _ _

/-- C8 witness: in the two-user document with one banned user, both users are
attempted and the counts sum to two for a delivery oracle that fails on the
banned chat. -/
theorem broadcast_counts_spec_witness :
    (3 : Nat) ∈ broadcastRecipients brDb
    ∧ (7 : Nat) ∈ broadcastRecipients brDb
    ∧ (broadcastCounts brDb (fun uid => uid != 7)).1
        + (broadcastCounts brDb (fun uid => uid != 7)).2
        = (broadcastRecipients brDb).length := by
  have h := broadcast_counts_spec brDb (fun uid => uid != 7)
  exact ⟨h.2.1 { id := 3, name := "cal" } (by decide),
    h.2.1 banEve (by decide), h.2.2⟩

/-- C9 counterexample: readDb does not back-fill a missing matches
collection: loading a stored document with users present and matches absent
leaves matches absent rather than empty, and saving then re-loading the
resulting in-memory document keeps it absent. -/
theorem roundtrip_matches_counterexample :
    readDb (some sdNoMatches) = ldNoMatches
    ∧ (readDb (some (writeDb ldNoMatches))).«matches» = none
    ∧ ¬ (readDb (some (writeDb ldNoMatches))).«matches» = some [] := by
  refine ⟨by decide, by decide, by decide⟩

/-- C9 (corrected): save followed by load is the identity on in-memory
documents — users, matches and reports field-for-field, viewers included;
loading a raw stored document back-fills missing reports and subAdmins
collections and every user's missing viewers list with empty ones, but
preserves a missing matches collection as missing; a stored document without
a users collection, like a read failure, loads as the fresh empty
document. -/
theorem store_roundtrip_spec :
    (∀ d : LoadedDoc, readDb (some (writeDb d)) = d)
    ∧ (∀ s : StoredDoc, ∀ us, s.users = some us →
        readDb (some s)
          = { users := us.map StoredUser.load, «matches» := s.«matches»,
              reports := s.reports.getD [], subAdmins := s.subAdmins.getD [] })
    ∧ (∀ su : StoredUser, su.viewers = none → (StoredUser.load su).viewers = [])
    ∧ readDb none = emptyLoadedDoc
    ∧ (∀ s : StoredDoc, s.users = none → readDb (some s) = emptyLoadedDoc) := by
  refine ⟨?_, ?_, ?_, rfl, ?_⟩
  · intro d
    show ({ users := (d.users.map User.store).map StoredUser.load,
            «matches» := d.«matches»,
            reports := (some d.reports).getD [],
            subAdmins := (some d.subAdmins).getD [] } : LoadedDoc) = d
    rw [List.map_map,
      show StoredUser.load ∘ User.store = id from funext (fun u => rfl),
      List.map_id]
    rfl
  · intro s us hus
    show (match s.users with
      | none => emptyLoadedDoc
      | some us =>
        ({ users := us.map StoredUser.load, «matches» := s.«matches»,
           reports := s.reports.getD [], subAdmins := s.subAdmins.getD [] } : LoadedDoc)) = _
    rw [hus]
  · intro su hsu
    unfold StoredUser.load
    rw [hsu]
    rfl
  · intro s hs
    show (match s.users with
      | none => emptyLoadedDoc
      | some us =>
        ({ users := us.map StoredUser.load, «matches» := s.«matches»,
           reports := s.reports.getD [], subAdmins := s.subAdmins.getD [] } : LoadedDoc)) = _
    rw [hs]

/-- C9 witness: the round trip is the identity on a concrete document whose
single user has a non-empty viewers list, and a stored user without a viewers
array loads with an empty one. -/
theorem store_roundtrip_spec_witness :
    readDb (some (writeDb { users := [vTarget] })) = { users := [vTarget] }
    ∧ (StoredUser.load suOld).viewers = []
    ∧ readDb (some { users := some [suOld] })
        = { users := [StoredUser.load suOld], «matches» := none,
            reports := [], subAdmins := [] } := by
  refine ⟨store_roundtrip_spec.1 { users := [vTarget] },
    store_roundtrip_spec.2.2.1 suOld (by decide), ?_⟩
  have h := store_roundtrip_spec.2.1 { users := some [suOld] } [suOld] rfl
  rw [h]
  decide

theorem showSearchResultStep_eq_some {s : BotState} {cache : SearchCache}
    (hc : s.cache = some cache) (chatId : Nat) (dir : String) (now : Nat) :
    showSearchResultStep s chatId dir now =
      if cache.results.isEmpty then (s, .expired)
      else
        if (cache.results.length : Int) ≤ navIndex cache dir then
          ({ s with cache := some { cache with index := (cache.results.length : Int) - 1 } },
           .atEnd)
        else if navIndex cache dir < 0 then
          ({ s with cache := some { cache with index := 0 } }, .atStart)
        else
          match cache.results.get? (navIndex cache dir).toNat with
          | none => (s, .expired)
          | some profile =>
            ({ db := updateUser s.db profile.id (fun u => recordView u chatId now),
               cache := some { cache with index := navIndex cache dir } }, .shown profile) := by
  unfold showSearchResultStep
  rw [hc]

/-- C10 (confirmed): the search snapshot is immutable under later document
mutations: banning, profile edits, boosts and grants change only the
document, never the cached result list, so browsing renders exactly the same
outcome (the same profile, field for field) before and after any sequence of
mutations until a new search replaces the cache with a snapshot of the
then-current document; the cursor clamps at both ends with a boundary
outcome and no wrap-around, and every rendered profile comes from the cached
snapshot. -/
theorem browsing_snapshot_spec (s : BotState) :
    (∀ ms : List Mutation, (applyMutations s ms).cache = s.cache)
    ∧ (∀ ms chatId dir now,
        (showSearchResultStep (applyMutations s ms) chatId dir now).2
          = (showSearchResultStep s chatId dir now).2)
    ∧ (∀ chatId crit now, (execSearchStep s chatId crit now).cache
        = if (executeSearchResults s.db chatId crit now).isEmpty then s.cache
          else some { results := executeSearchResults s.db chatId crit now, index := -1 })
    ∧ (∀ chatId now cache, s.cache = some cache → cache.results ≠ [] →
        (cache.results.length : Int) - 1 ≤ cache.index →
        (showSearchResultStep s chatId "next" now).2 = .atEnd
        ∧ (showSearchResultStep s chatId "next" now).1.cache
            = some { cache with index := (cache.results.length : Int) - 1 })
    ∧ (∀ chatId now cache, s.cache = some cache → cache.results ≠ [] →
        cache.index ≤ 0 →
        (showSearchResultStep s chatId "prev" now).2 = .atStart
        ∧ (showSearchResultStep s chatId "prev" now).1.cache
            = some { cache with index := 0 })
    ∧ (∀ chatId dir now profile,
        (showSearchResultStep s chatId dir now).2 = .shown profile →
        ∃ cache, s.cache = some cache ∧ profile ∈ cache.results) := by
  have hcache : ∀ (ms : List Mutation) (t : BotState),
      (applyMutations t ms).cache = t.cache := by
    intro ms
    induction ms with
    | nil => intro t; rfl
    | cons m tail ih =>
      intro t
      rw [show applyMutations t (m :: tail) = applyMutations (applyMutation t m) tail
        from rfl, ih (applyMutation t m)]
      cases m <;> rfl
  refine ⟨fun ms => hcache ms s, ?_, ?_, ?_, ?_, ?_⟩
  · intro ms chatId dir now
    cases hc : s.cache with
    | none =>
      have h1 : (applyMutations s ms).cache = none := by rw [hcache ms s, hc]
      unfold showSearchResultStep
      rw [h1, hc]
    | some cache =>
      have h1 : (applyMutations s ms).cache = some cache := by rw [hcache ms s, hc]
      rw [showSearchResultStep_eq_some h1, showSearchResultStep_eq_some hc]
      by_cases he : cache.results.isEmpty = true
      · rw [if_pos he, if_pos he]
      · rw [if_neg he, if_neg he]
        by_cases hend : (cache.results.length : Int) ≤ navIndex cache dir
        · rw [if_pos hend, if_pos hend]
        · rw [if_neg hend, if_neg hend]
          by_cases hstart : navIndex cache dir < 0
          · rw [if_pos hstart, if_pos hstart]
          · rw [if_neg hstart, if_neg hstart]
            cases hget : cache.results.get? (navIndex cache dir).toNat with
            | none => rfl
            | some profile => rfl
  · intro chatId crit now
    unfold execSearchStep
    by_cases hemp : (executeSearchResults s.db chatId crit now).isEmpty = true
    · rw [if_pos hemp, if_pos hemp]
    · rw [if_neg hemp, if_neg hemp]
  · intro chatId now cache hc hne hidx
    have hnav : navIndex cache "next" = cache.index + 1 := by
      unfold navIndex
      rw [show (("next" == "next") : Bool) = true from rfl,
        show (("next" == "prev") : Bool) = false from rfl]
      show cache.index + 1 - 0 = cache.index + 1
      omega
    have hemp : ¬ cache.results.isEmpty = true := fun h => hne (List.isEmpty_iff.1 h)
    rw [showSearchResultStep_eq_some hc, if_neg hemp, hnav,
      if_pos (show (cache.results.length : Int) ≤ cache.index + 1 by omega)]
    exact ⟨rfl, rfl⟩
  · intro chatId now cache hc hne hidx
    have hnav : navIndex cache "prev" = cache.index - 1 := by
      unfold navIndex
      rw [show (("prev" == "next") : Bool) = false from rfl,
        show (("prev" == "prev") : Bool) = true from rfl]
      show cache.index + 0 - 1 = cache.index - 1
      omega
    have hlen : 0 < cache.results.length := List.length_pos.2 hne
    have hemp : ¬ cache.results.isEmpty = true := fun h => hne (List.isEmpty_iff.1 h)
    rw [showSearchResultStep_eq_some hc, if_neg hemp, hnav,
      if_neg (show ¬ (cache.results.length : Int) ≤ cache.index - 1 by omega),
      if_pos (show cache.index - 1 < 0 by omega)]
    exact ⟨rfl, rfl⟩
  · intro chatId dir now profile hshown
    cases hc : s.cache with
    | none =>
      unfold showSearchResultStep at hshown
      rw [hc] at hshown
      exact NavOutcome.noConfusion
        (show NavOutcome.expired = NavOutcome.shown profile from hshown)
    | some cache =>
      refine ⟨cache, rfl, ?_⟩
      rw [showSearchResultStep_eq_some hc] at hshown
      by_cases he : cache.results.isEmpty = true
      · rw [if_pos he] at hshown
        exact NavOutcome.noConfusion
          (show NavOutcome.expired = NavOutcome.shown profile from hshown)
      · rw [if_neg he] at hshown
        by_cases hend : (cache.results.length : Int) ≤ navIndex cache dir
        · rw [if_pos hend] at hshown
          exact NavOutcome.noConfusion
            (show NavOutcome.atEnd = NavOutcome.shown profile from hshown)
        · rw [if_neg hend] at hshown
          by_cases hstart : navIndex cache dir < 0
          · rw [if_pos hstart] at hshown
            exact NavOutcome.noConfusion
              (show NavOutcome.atStart = NavOutcome.shown profile from hshown)
          · rw [if_neg hstart] at hshown
            cases hget : cache.results.get? (navIndex cache dir).toNat with
            | none =>
              rw [hget] at hshown
              exact NavOutcome.noConfusion
                (show NavOutcome.expired = NavOutcome.shown profile from hshown)
            | some q =>
              rw [hget] at hshown
              have h2 : NavOutcome.shown q = NavOutcome.shown profile := hshown
              injection h2 with h3
              subst h3
              exact List.get?_mem hget

/-- C10 witness: with the two-result snapshot, banning, renaming and
boosting the stored candidates changes neither the cache nor the rendered
outcome; with the cursor on the last entry a further next clamps with the
end-of-results message, and on the first entry prev clamps at the
beginning. -/
theorem browsing_snapshot_spec_witness :
    (applyMutations navState navMuts).cache = navState.cache
    ∧ (showSearchResultStep (applyMutations navState navMuts) 5 "next" 0).2
        = (showSearchResultStep navState 5 "next" 0).2
    ∧ (showSearchResultStep navState 5 "next" 0).2 = .shown sPlain
    ∧ (showSearchResultStep
        { db := sDb, cache := some { results := [sBoosted, sPlain], index := 1 } }
        5 "next" 0).2 = .atEnd
    ∧ (showSearchResultStep navState 5 "prev" 0).2 = .atStart := by
  have h := browsing_snapshot_spec navState
  refine ⟨h.1 navMuts, h.2.1 navMuts 5 "next" 0, by decide, ?_, ?_⟩
  · exact ((browsing_snapshot_spec
      { db := sDb, cache := some { results := [sBoosted, sPlain], index := 1 } }).2.2.2.1
      5 0 { results := [sBoosted, sPlain], index := 1 } rfl (by decide) (by decide)).1
  · exact (h.2.2.2.2.1 5 0 { results := [sBoosted, sPlain], index := 0 } rfl
      (by decide) (by decide)).1

end DatingBot
